import Mathlib

/-!
Verification of the SplitPayPDF page classification and naming engine
(src/SplitPayPDF.py) against its natural-language specification.

The Python source is shallowly embedded: pure helper functions become Lean
functions on `String`/`List Char`; the filesystem is modelled as the list of
existing paths plus an explicit trace of effects (directory creation, page
artifact writes, audit CSV writes, application-log appends); the per-page
split loop becomes a fold over the page texts.

Character model: Python strings are sequences of Unicode code points, exactly
like Lean `Char` lists.  Python's Unicode-aware character classes (`\w`, `\s`,
`str.lower`) are modelled on the subset of Unicode actually exercised by the
program: ASCII plus the non-ASCII letters occurring in the source's
folder-normalization substitution table.  Characters outside this modelled
universe are treated as non-word characters.
-/

/-- Model of the character class `\s` of Python's `re` module and of the
default `str.strip` character set (ASCII part): space, tab, newline,
carriage return, vertical tab, form feed. -/
def pyIsSpace (c : Char) : Bool :=
  [' ', '\t', '\n', '\r', '\x0b', '\x0c'].contains c

/-- The non-ASCII letters of the modelled universe: every letter character
occurring in the keys of `normalize_folder_name`'s substitution table in the
source, plus the lowercase images of its uppercase members. -/
def extraWordChars : List Char :=
  ['ƒ', 'ç', 'á', 'æ', 'ë', 'å', 'Ü', 'Ω', 'ê', 'ü', 'ω']

/-- Model of the character class `\w` of Python's `re` module (word
character): ASCII alphanumerics and underscore, plus the non-ASCII letters of
the modelled universe. -/
def pyIsWordChar (c : Char) : Bool :=
  ('0' ≤ c && c ≤ '9') || ('A' ≤ c && c ≤ 'Z') || ('a' ≤ c && c ≤ 'z')
    || c == '_' || extraWordChars.contains c

/-- Lowercasing table for the modelled universe: the ASCII uppercase letters
and the uppercase letters occurring in the substitution-table keys. -/
def lowerPairs : List (Char × Char) :=
  [('A', 'a'), ('B', 'b'), ('C', 'c'), ('D', 'd'), ('E', 'e'), ('F', 'f'),
   ('G', 'g'), ('H', 'h'), ('I', 'i'), ('J', 'j'), ('K', 'k'), ('L', 'l'),
   ('M', 'm'), ('N', 'n'), ('O', 'o'), ('P', 'p'), ('Q', 'q'), ('R', 'r'),
   ('S', 's'), ('T', 't'), ('U', 'u'), ('V', 'v'), ('W', 'w'), ('X', 'x'),
   ('Y', 'y'), ('Z', 'z'), ('Ü', 'ü'), ('Ω', 'ω')]

/-- Model of Python `str.lower` on a single character of the modelled
universe: characters without an entry in `lowerPairs` are unchanged. -/
def pyToLower (c : Char) : Char :=
  ((lowerPairs.find? (fun q => q.1 == c)).map Prod.snd).getD c

/-- An uppercase letter of the modelled universe: one that `str.lower` would
change, i.e. a key of `lowerPairs`. -/
def pyIsUpper (c : Char) : Bool :=
  lowerPairs.any (fun q => q.1 == c)

/-- Model of Python `str.lower` on a whole string (per-character). -/
def pyLowerStr (s : String) : String :=
  String.mk (s.data.map pyToLower)

/-- Strip the modelled whitespace characters from both ends of a character
list (Python `str.strip()` with no arguments). -/
def stripChars (l : List Char) : List Char :=
  ((l.dropWhile pyIsSpace).reverse.dropWhile pyIsSpace).reverse

/-- Python `str.strip()`. -/
def pyStrip (s : String) : String :=
  String.mk (stripChars s.data)

/-- Python slice `s[start:stop]` for non-negative `start`, `stop`:
out-of-range bounds truncate, `stop ≤ start` gives the empty string. -/
def pySlice (s : String) (start stop : Nat) : String :=
  String.mk ((s.data.drop start).take (stop - start))

/-- Python slice `s[start:]` for non-negative `start`. -/
def pySliceFrom (s : String) (start : Nat) : String :=
  String.mk (s.data.drop start)

/-- Python `s[:n]` for non-negative `n`. -/
def pyTake (s : String) (n : Nat) : String :=
  String.mk (s.data.take n)

/-- Helper for `pySplitlines`: accumulates the current line (reversed). -/
def splitlinesAux : List Char → List Char → List String
  | [], acc => if acc.isEmpty then [] else [String.mk acc.reverse]
  | '\r' :: '\n' :: rest, acc => String.mk acc.reverse :: splitlinesAux rest []
  | '\r' :: rest, acc => String.mk acc.reverse :: splitlinesAux rest []
  | '\n' :: rest, acc => String.mk acc.reverse :: splitlinesAux rest []
  | c :: rest, acc => splitlinesAux rest (c :: acc)

/-- Model of Python `str.splitlines()` for the line-break characters
`\n`, `\r`, `\r\n`: every break terminates a line; a final segment is kept
only when non-empty (so a trailing break adds no empty line). -/
def pySplitlines (s : String) : List String :=
  splitlinesAux s.data []

/-- `os.path.join` for two components (POSIX separator). -/
def pjoin (a b : String) : String :=
  a ++ "/" ++ b

/-- Split a path into (directory part including the final separator,
basename after the last separator); POSIX `'/'` separator. -/
def splitLastSep : List Char → List Char × List Char
  | [] => ([], [])
  | c :: rest =>
    if rest.contains '/' then
      let p := splitLastSep rest
      (c :: p.1, p.2)
    else if c == '/' then ([c], rest)
    else ([], c :: rest)

/-- Split a character list at its last `'.'`: `some (before, from-dot)` when
a dot exists, `none` otherwise. -/
def lastDotSplit : List Char → Option (List Char × List Char)
  | [] => none
  | c :: cs =>
    match lastDotSplit cs with
    | some p => some (c :: p.1, p.2)
    | none => if c == '.' then some ([], '.' :: cs) else none

/-- Extension split of a basename, CPython rule: split at the last dot only
when some earlier character of the basename is not a dot (so names made of
leading dots, like `.bashrc`, have no extension). -/
def splitextName (name : List Char) : List Char × List Char :=
  match lastDotSplit name with
  | some (pre, suf) => if pre.any (fun c => c ≠ '.') then (pre, suf) else (name, [])
  | none => (name, [])

/-- Model of `os.path.splitext` (POSIX). -/
def splitext (p : String) : String × String :=
  let dn := splitLastSep p.data
  let se := splitextName dn.2
  (String.mk (dn.1 ++ se.1), String.mk se.2)

/-- Model of `os.path.basename` (POSIX). -/
def basename (p : String) : String :=
  String.mk (splitLastSep p.data).2

/-- Decimal value of a list of ASCII digit characters (the value Python's
`int` gives to the digits captured by `(\d+)`). -/
def digitsToNat (ds : List Char) : Nat :=
  ds.foldl (fun acc c => acc * 10 + (c.toNat - 48)) 0

/-- Model of Python `int(str)`: optional surrounding whitespace, optional
sign, then decimal digits (digit-group underscores are not modelled; the
program's inputs are plain numerals).  `none` models the `ValueError`. -/
def pyInt (s : String) : Option Int :=
  match stripChars s.data with
  | '+' :: ds =>
    if ds ≠ [] && ds.all Char.isDigit then some (digitsToNat ds) else none
  | '-' :: ds =>
    if ds ≠ [] && ds.all Char.isDigit then some (-(digitsToNat ds : Int)) else none
  | ds =>
    if ds ≠ [] && ds.all Char.isDigit then some (digitsToNat ds) else none

/-- One pass of Python `str.replace(k, v)` (all non-overlapping occurrences,
left to right), fuelled: each step consumes at least one character when `k`
is non-empty, so fuel equal to the input length always suffices (all callers
pass non-empty keys from the substitution table). -/
def pyReplaceAux (k v : List Char) : Nat → List Char → List Char
  | 0, cs => cs
  | _ + 1, [] => []
  | fuel + 1, c :: cs =>
    if k.isPrefixOf (c :: cs) then v ++ pyReplaceAux k v fuel ((c :: cs).drop k.length)
    else c :: pyReplaceAux k v fuel cs

/-- Python `s.replace(k, v)` for non-empty `k`. -/
def pyReplace (s k v : String) : String :=
  String.mk (pyReplaceAux k.data v.data s.data.length s.data)

-- -------------------- Source: utilities --------------------

/-- `sanitize_filename` (src line 67): remove every character that is not a
word character, whitespace or hyphen, strip, replace spaces by underscores. -/
def sanitize_filename (name : String) : String :=
  String.mk
    ((stripChars (name.data.filter fun c => pyIsWordChar c || pyIsSpace c || c == '-')).map
      fun c => if c == ' ' then '_' else c)

/-- The substitution table of `normalize_folder_name` (src lines 72-83),
keys and values verbatim (the keys are the two-character sequences that
appear literally in the source file). -/
def replTable : List (String × String) :=
  [("ƒç", "c"), ("ƒá", "c"), ("≈æ", "z"), ("≈°", "s"), ("ƒë", "d"),
   ("ƒå", "c"), ("ƒÜ", "c"), ("≈Ω", "z"), ("≈†", "s"), ("ƒê", "d")]

/-- `normalize_folder_name` (src line 71): apply the substitution table in
order, remove every non-word character, lowercase. -/
def normalize_folder_name (name : String) : String :=
  String.mk
    (((replTable.foldl (fun s kv => pyReplace s kv.1 kv.2) name).data.filter
      pyIsWordChar).map pyToLower)

/-- The probing loop of `get_unique_path` (src lines 153-158): candidates
`root_1ext`, `root_2ext`, … in increasing counter order; fuelled model of the
unbounded `while`: fuel exceeding the number of existing paths always
suffices because distinct counters give distinct candidates, so the
fuel-exhausted base case is unreachable for the fuel used below. -/
def probePaths (fs : List String) (root ext : String) : Nat → Nat → String
  | 0, counter => root ++ "_" ++ toString counter ++ ext
  | fuel + 1, counter =>
    let candidate := root ++ "_" ++ toString counter ++ ext
    if fs.contains candidate then probePaths fs root ext fuel (counter + 1) else candidate

/-- `get_unique_path` (src line 148): return `base_path` unchanged when it
does not exist, else probe `root_1ext`, `root_2ext`, …  The filesystem is the
list `fs` of existing paths. -/
def get_unique_path (fs : List String) (base_path : String) : String :=
  if !fs.contains base_path then base_path
  else
    let se := splitext base_path
    probePaths fs se.1 se.2 (fs.length + 1) 1

/-- The probing loop of `get_unique_auditlog_path` (src lines 140-145). -/
def probeAudit (fs : List String) (outdir date_str : String) : Nat → Nat → String
  | 0, counter => pjoin outdir ("audit_log_" ++ date_str ++ "_" ++ toString counter ++ ".csv")
  | fuel + 1, counter =>
    let candidate := pjoin outdir ("audit_log_" ++ date_str ++ "_" ++ toString counter ++ ".csv")
    if fs.contains candidate then probeAudit fs outdir date_str fuel (counter + 1) else candidate

/-- `get_unique_auditlog_path` (src line 135), with the run date passed in
explicitly instead of read from the clock. -/
def get_unique_auditlog_path (fs : List String) (outdir date_str : String) : String :=
  let base := pjoin outdir ("audit_log_" ++ date_str ++ ".csv")
  if !fs.contains base then base
  else probeAudit fs outdir date_str (fs.length + 1) 1

-- -------------------- Source: pattern resolver --------------------

/-- `\s+` of `LINE_TOKEN_RE` (src line 168): consume one or more whitespace
characters, returning the remaining input (`none` when no whitespace). -/
def parseSpaces (cs : List Char) : Option (List Char) :=
  let ws := cs.takeWhile pyIsSpace
  if ws.isEmpty then none else some (cs.drop ws.length)

/-- `(\d+)` of `LINE_TOKEN_RE`: consume one or more ASCII digits and return
their decimal value with the remaining input (`none` when no digit). -/
def parseDigits (cs : List Char) : Option (Nat × List Char) :=
  let ds := cs.takeWhile Char.isDigit
  if ds.isEmpty then none else some (digitsToNat ds, cs.drop ds.length)

/-- The result of matching `LINE_TOKEN_RE` at the start of the input: the
three captured groups (line number, optional start, optional end) and the
input after the matched token. -/
abbrev TokenMatch := (Nat × Option Nat × Option Nat) × List Char

/-- After `[LINE \d+(\d+/\d+` : expect `)]`. -/
def matchEndBoth (n s e : Nat) : List Char → Option TokenMatch
  | ')' :: ']' :: rest => some ((n, some s, some e), rest)
  | _ => none

/-- After `[LINE \d+(\d+/` : expect digits then `)]`. -/
def matchSlashPart (n s : Nat) (cs : List Char) : Option TokenMatch :=
  match parseDigits cs with
  | none => none
  | some (e, rest) => matchEndBoth n s e rest

/-- After `[LINE \d+(\d+` : expect `)]` or `/` then the end position. -/
def matchAfterStart (n s : Nat) : List Char → Option TokenMatch
  | ')' :: ']' :: rest => some ((n, some s, none), rest)
  | '/' :: rest => matchSlashPart n s rest
  | _ => none

/-- After `[LINE \d+(` : expect digits for the start position. -/
def matchParenPart (n : Nat) (cs : List Char) : Option TokenMatch :=
  match parseDigits cs with
  | none => none
  | some (s, rest) => matchAfterStart n s rest

/-- After `[LINE \d+` : expect `]` or a `(`-group. -/
def matchAfterNum (n : Nat) : List Char → Option TokenMatch
  | ']' :: rest => some ((n, none, none), rest)
  | '(' :: rest => matchParenPart n rest
  | _ => none

/-- Matcher for `LINE_TOKEN_RE = \[LINE\s+(\d+)(?:\((\d+)(?:/(\d+))?\))?\]`
(src line 168) anchored at the start of the input.  The regex is
deterministic (no character is both whitespace and digit, and the delimiters
are disjoint from both), so a straight-line matcher is equivalent to the
backtracking engine here.  The pattern is case-sensitive: only the literal
uppercase `LINE` matches. -/
def matchToken (cs : List Char) : Option TokenMatch :=
  match cs with
  | '[' :: 'L' :: 'I' :: 'N' :: 'E' :: rest =>
    match parseSpaces rest with
    | none => none
    | some rest1 =>
      match parseDigits rest1 with
      | none => none
      | some (n, rest2) => matchAfterNum n rest2
  | _ => none

/-- `replace_token` (src lines 172-188), the per-token resolution: empty
string for an out-of-range line index (`line_no` is parsed from digits so it
is never negative; the source's `line_no < 0` guard is vacuous), otherwise
slice per the optional start/end positions and strip. -/
def replace_token (lines : List String) (line_no : Nat)
    (start_pos end_pos : Option Nat) : String :=
  if line_no ≥ lines.length then ""
  else
    let text := lines.getD line_no ""
    match start_pos with
    | none => pyStrip text
    | some s =>
      let start := (max ((s : Int) - 1) 0).toNat
      match end_pos with
      | none => pyStrip (pySliceFrom text start)
      | some e => pyStrip (pySlice text start e)

/-- The scan of `LINE_TOKEN_RE.sub` (src line 190): at each position try to
match a token; on a match emit the replacement and continue after it, else
copy the character.  Fuelled model of the scan: each step consumes at least
one character, so fuel equal to the input length (as passed by
`subLineTokens`) always suffices and the fuel-exhausted base case is
unreachable there. -/
def subAux (lines : List String) : Nat → List Char → List Char
  | 0, cs => cs
  | _ + 1, [] => []
  | fuel + 1, c :: cs =>
    match matchToken (c :: cs) with
    | some (tok, rest) =>
      (replace_token lines tok.1 tok.2.1 tok.2.2).data ++ subAux lines fuel rest
    | none => c :: subAux lines fuel cs

/-- `LINE_TOKEN_RE.sub(replace_token, pattern)`. -/
def subLineTokens (lines : List String) (cs : List Char) : List Char :=
  subAux lines cs.length cs

/-- `build_value_from_line_pattern` (src line 171).  (`pattern or ""` in the
source only converts `None` to `""`; the embedding takes the pattern as a
string directly.) -/
def build_value_from_line_pattern (lines : List String) (pattern : String) : String :=
  String.mk (subLineTokens lines pattern.data)

/-- `build_filename_from_line_pattern` (src line 193): resolve the pattern;
empty stays empty; append `.pdf` unless already present case-insensitively;
sanitize the stem and recombine with the extension. -/
def build_filename_from_line_pattern (lines : List String) (pattern : String) : String :=
  let raw := build_value_from_line_pattern lines pattern
  if raw = "" then ""
  else
    let raw := if (".pdf".data.isSuffixOf (pyLowerStr raw).data) then raw else raw ++ ".pdf"
    let se := splitext raw
    sanitize_filename se.1 ++ se.2

-- -------------------- Source: split orchestrator --------------------

/-- A filesystem side effect of a run, in program order.  `appLog` is the
append performed by `write_app_log` (src line 55) on the application log
file in the AppData directory; every `log(...)` call inside the engine goes
through it.  `openFolder` is the `subprocess.Popen` "reveal folder" call
(not a filesystem write). -/
inductive FsEffect where
  | mkdir (path : String)
  | savePdf (path : String)
  | writeCsv (path : String)
  | appLog (line : String)
  | openFolder (path : String)
deriving DecidableEq, Repr

/-- Effects that create or write a file or directory somewhere on the
filesystem (the application log lives outside the output tree but its append
is still a filesystem write). -/
def FsEffect.isFsWrite : FsEffect → Bool
  | .mkdir _ => true
  | .savePdf _ => true
  | .writeCsv _ => true
  | .appLog _ => true
  | .openFolder _ => false

/-- Effects that create a directory or write a file inside the output tree:
directory creation, page artifact writes, audit CSV writes. -/
def FsEffect.isOutputWrite : FsEffect → Bool
  | .mkdir _ => true
  | .savePdf _ => true
  | .writeCsv _ => true
  | _ => false

/-- `FsEffect.appLog` recogniser. -/
def FsEffect.isAppLog : FsEffect → Bool
  | .appLog _ => true
  | _ => false

/-- One row of the audit table (src: the dicts appended to `audit_rows`). -/
structure AuditRow where
  page : Nat
  status : String
  filename : String
  folderRaw : String
  folderName : String
  note : String
deriving DecidableEq, Repr

/-- The per-page naming decision (spec §3 `NamingDecision`), read off from
the values the loop body computes before it branches on `safe_mode`
(src lines 306-354): status, sanitized file name (empty when unresolvable),
raw and normalized folder values, and target directory (absent when
unresolvable, since the source computes it only for resolved pages). -/
structure NamingDecision where
  page : Nat
  resolved : Bool
  fileName : String
  folderRaw : String
  folderName : String
  targetDir : Option String
deriving DecidableEq, Repr

/-- The dict returned by `split_pdf_full` (src lines 431-436). -/
structure RunSummary where
  total : Nat
  success : Nat
  failed : Nat
  audit_path : Option String
deriving DecidableEq, Repr

/-- The arguments of `split_pdf_full` (src line 259); `date_str` stands for
the current date the source reads from the clock for the audit-log name. -/
structure RunParams where
  inp_path : String
  out_dir : String
  file_pattern : String
  folder_pattern : String
  save_to_folders : Bool
  safe_mode : Bool
  auto_open : Bool
  date_str : String
deriving Repr

/-- The mutable state of the split loop: existing paths, the effect trace,
the accumulated audit rows and naming decisions, and the two counters. -/
structure RunState where
  fs : List String
  effects : List FsEffect
  audit : List AuditRow
  decisions : List NamingDecision
  success : Nat
  failed : Nat
deriving Repr

/-- Everything observable about a finished run. -/
structure RunOutput where
  summary : RunSummary
  audit : List AuditRow
  decisions : List NamingDecision
  effects : List FsEffect
  fs : List String
deriving Repr

/-- Add a path to the filesystem if not already present. -/
def fsAdd (fs : List String) (p : String) : List String :=
  if fs.contains p then fs else fs ++ [p]

/-- The collision loop of the resolved/live branch (src lines 376-381):
probe `base_1ext`, `base_2ext`, … within `dir`.  Fuelled like
`probePaths`; the fuel used by `uniqueNameInDir` always suffices. -/
def probeNames (fs : List String) (dir base ext : String) : Nat → Nat → String
  | 0, counter => base ++ "_" ++ toString counter ++ ext
  | fuel + 1, counter =>
    let cand := base ++ "_" ++ toString counter ++ ext
    if fs.contains (pjoin dir cand) then probeNames fs dir base ext fuel (counter + 1)
    else cand

/-- Directory-scoped unique file name (src lines 376-381): keep `filename`
when `dir/filename` does not exist, else suffix `_1`, `_2`, …. -/
def uniqueNameInDir (fs : List String) (dir fname : String) : String :=
  if !fs.contains (pjoin dir fname) then fname
  else
    let se := splitext fname
    probeNames fs dir se.1 se.2 (fs.length + 1) 1

/-- The SAFE-mode first-page debug dump (src lines 300-304). -/
def debugEffects (page_no : Nat) (lines : List String) : List FsEffect :=
  FsEffect.appLog ("[DEBUG] --- PAGE " ++ toString page_no ++ " ---")
    :: (lines.enum.map fun il => FsEffect.appLog ("  LINE " ++ toString il.1 ++ ": " ++ il.2))
    ++ [FsEffect.appLog "‚Äì‚Äì‚Äì‚Äì‚Äì‚Äì‚Äì‚Äì‚Äì‚Äì‚Äì‚Äì‚Äì‚Äì‚Äì‚Äì‚Äì‚Äì‚Äì‚Äì‚Äì‚Äì‚Äì‚Äì‚Äì‚Äì‚Äì‚Äì‚Äì‚Äì‚Äì‚Äì‚Äì‚Äì‚Äì‚Äì‚Äì‚Äì‚Äì"]

/-- One iteration of the page loop of `split_pdf_full` (src lines 294-400).
`idx` is the zero-based page index, `text` the page's extracted text.  The
two branch conditions of the loop body — "no usable file name" (src line
310) and `safe_mode` — are dispatched together. -/
def processPage (p : RunParams) (st : RunState) (idx : Nat) (text : String) : RunState :=
  let page_no := idx + 1
  let lines := pySplitlines text
  let dbg := if p.safe_mode && page_no == 1 then debugEffects page_no lines else []
  let filename := build_filename_from_line_pattern lines p.file_pattern
  let raw_folder := build_value_from_line_pattern lines p.folder_pattern
  let foldername := if raw_folder == "" then "" else normalize_folder_name raw_folder
  let excerpt := pyTake (String.mk (text.data.map fun c => if c == '\n' then ' ' else c)) 300
  let warnEffs : List FsEffect :=
    [.appLog ("‚ö† Page " ++ toString page_no ++ ": no valid filename ‚Üí manual review needed"),
     .appLog ("[manual_review] Page " ++ toString page_no ++ " excerpt: " ++ excerpt)]
  let target_dir :=
    if p.save_to_folders then
      if foldername == "" then pjoin p.out_dir "unknown" else pjoin p.out_dir foldername
    else p.out_dir
  match filename == "" || filename == ".pdf", p.safe_mode with
  | true, true =>
    { st with
      failed := st.failed + 1
      effects := st.effects ++ dbg ++ warnEffs
      decisions := st.decisions ++ [⟨page_no, false, "", raw_folder, foldername, none⟩]
      audit := st.audit ++ [⟨page_no, "Failed (SAFE mode)", "", raw_folder, foldername,
                             "Would be sent to !manual_review"⟩] }
  | true, false =>
    let review_name := "Unmatched_Page_" ++ toString page_no ++ ".pdf"
    let review_path := pjoin (pjoin p.out_dir "!manual_review") review_name
    { st with
      failed := st.failed + 1
      effects := st.effects ++ dbg ++ warnEffs ++ [.savePdf review_path]
      fs := fsAdd st.fs review_path
      decisions := st.decisions ++ [⟨page_no, false, "", raw_folder, foldername, none⟩]
      audit := st.audit ++ [⟨page_no, "Failed", "", raw_folder, foldername,
                             "Sent to " ++ review_name⟩] }
  | false, true =>
    { st with
      effects := st.effects ++ dbg
        ++ [.appLog ("üîé [SAFE] Page " ++ toString page_no ++ ": would save as "
              ++ pjoin target_dir filename)]
      decisions := st.decisions ++ [⟨page_no, true, filename, raw_folder, foldername,
                                     some target_dir⟩]
      audit := st.audit ++ [⟨page_no, "OK (SAFE mode)", filename, raw_folder, foldername,
                             "Would be saved"⟩] }
  | false, false =>
    let fs1 := fsAdd st.fs target_dir
    let final_name := uniqueNameInDir fs1 target_dir filename
    let out_path := pjoin target_dir final_name
    { st with
      success := st.success + 1
      effects := st.effects ++ dbg
        ++ [.mkdir target_dir, .savePdf out_path,
            .appLog ("‚úÖ Page " ++ toString page_no ++ ": saved as " ++ out_path)]
      fs := fsAdd fs1 out_path
      decisions := st.decisions ++ [⟨page_no, true, filename, raw_folder, foldername,
                                     some target_dir⟩]
      audit := st.audit ++ [⟨page_no, "OK", final_name, raw_folder, foldername, ""⟩] }

/-- `split_pdf_full` (src lines 259-436).  `doc` is the list of per-page
extracted texts (the document-paging collaborator), `fs0` the set of paths
existing when the run starts.  The audit CSV write models the successful
`to_csv` path (persistence failure is an environment fault outside this
embedding). -/
def split_pdf_full (p : RunParams) (doc : List String) (fs0 : List String) : RunOutput :=
  let effects0 := [FsEffect.appLog ("üïí Split started: " ++ p.inp_path)]
  if doc.length = 0 then
    { summary := ⟨0, 0, 0, none⟩, audit := [], decisions := [],
      effects := effects0 ++ [FsEffect.appLog "‚ö† PDF has no pages."], fs := fs0 }
  else
    let review_dir := pjoin p.out_dir "!manual_review"
    let st0 : RunState :=
      if p.safe_mode then ⟨fs0, effects0, [], [], 0, 0⟩
      else
        ⟨fsAdd (fsAdd fs0 p.out_dir) review_dir,
         effects0 ++ [FsEffect.mkdir p.out_dir, FsEffect.mkdir review_dir], [], [], 0, 0⟩
    let st1 := doc.enum.foldl (fun s it => processPage p s it.1 it.2) st0
    let fin :=
      if p.safe_mode then
        ({ st1 with effects := st1.effects ++ [FsEffect.appLog "SAFE MODE: no audit CSV written."] },
         (none : Option String))
      else
        let ap := get_unique_auditlog_path st1.fs p.out_dir p.date_str
        ({ st1 with
            effects := st1.effects ++ [FsEffect.writeCsv ap, FsEffect.appLog ("üßæ Audit log saved: " ++ ap)]
            fs := fsAdd st1.fs ap },
         some ap)
    let st2 := fin.1
    let st3 :=
      { st2 with effects := st2.effects
          ++ [FsEffect.appLog ("üèÅ Split finished. Pages=" ++ toString doc.length ++ ", Success="
                ++ toString st2.success ++ ", Manual review=" ++ toString st2.failed)] }
    let st4 :=
      if !p.safe_mode && p.auto_open then
        { st3 with effects := st3.effects ++ [FsEffect.openFolder p.out_dir] }
      else st3
    { summary := ⟨doc.length, st4.success, st4.failed, fin.2⟩,
      audit := st4.audit, decisions := st4.decisions, effects := st4.effects, fs := st4.fs }

/-- The naming decision the loop body derives for one page, as a pure
function of the page and the pattern/flag arguments only (no filesystem, no
`safe_mode`): the computations of src lines 306-354 before any branch on
`safe_mode` or filesystem state. -/
def decisionOf (out_dir file_pattern folder_pattern : String) (save_to_folders : Bool)
    (idx : Nat) (text : String) : NamingDecision :=
  let page_no := idx + 1
  let lines := pySplitlines text
  let filename := build_filename_from_line_pattern lines file_pattern
  let raw_folder := build_value_from_line_pattern lines folder_pattern
  let foldername := if raw_folder == "" then "" else normalize_folder_name raw_folder
  let target_dir :=
    if save_to_folders then
      if foldername == "" then pjoin out_dir "unknown" else pjoin out_dir foldername
    else out_dir
  match filename == "" || filename == ".pdf" with
  | true => ⟨page_no, false, "", raw_folder, foldername, none⟩
  | false => ⟨page_no, true, filename, raw_folder, foldername, some target_dir⟩

-- -------------------- Source: extract_pages --------------------

/-- Everything observable about a finished (or aborted) `extract_pages`
call: the effect trace up to the return or the propagated exception, the
resulting filesystem, and the outcome (`Except.error` models a raised
`ValueError` propagating to the caller). -/
structure ExtractOutput where
  effects : List FsEffect
  fs : List String
  result : Except String Unit
deriving Repr

/-- One saved page of the per-page range loop (src lines 489-496). -/
def extractOnePage (inp_path out_dir : String) (pg : Int)
    (acc : List FsEffect × List String) : List FsEffect × List String :=
  let base_name := (splitext (basename inp_path)).1
  let out_name := base_name ++ "_page_" ++ toString pg ++ ".pdf"
  let final_path := get_unique_path acc.2 (pjoin out_dir out_name)
  (acc.1 ++ [.savePdf final_path,
             .appLog ("‚úÖ Extracted page " ++ toString pg ++ " ‚Üí " ++ final_path)],
   fsAdd acc.2 final_path)

/-- `extract_pages` (src lines 442-518).  `total` is the page count of the
opened document; page contents are irrelevant to the control flow modelled
here.  Note the source calls `os.makedirs(out_dir)` (src line 465) before
the `try` block that validates the page arguments. -/
def extract_pages (inp_path out_dir single_page range_from range_to : String)
    (per_page auto_open : Bool) (total : Nat) (fs0 : List String) : ExtractOutput :=
  let effects := [FsEffect.appLog ("üïí Extract started: " ++ inp_path)]
  if total = 0 then
    ⟨effects ++ [.appLog "‚ö† PDF has no pages."], fs0, .ok ()⟩
  else
    let fs := fsAdd fs0 out_dir
    let effects := effects ++ [FsEffect.mkdir out_dir]
    let base_name := (splitext (basename inp_path)).1
    let afterBody : List FsEffect × List String → ExtractOutput := fun st =>
      if auto_open then ⟨st.1 ++ [.openFolder out_dir], st.2, .ok ()⟩
      else ⟨st.1, st.2, .ok ()⟩
    if single_page ≠ "" then
      match pyInt single_page with
      | none => ⟨effects, fs, .error "invalid literal for int()"⟩
      | some pg =>
        if pg < 1 || pg > (total : Int) then
          ⟨effects, fs, .error "Page number out of range."⟩
        else
          let out_name := base_name ++ "_page_" ++ toString pg ++ ".pdf"
          let final_path := get_unique_path fs (pjoin out_dir out_name)
          afterBody
            (effects ++ [.savePdf final_path,
               .appLog ("‚úÖ Extracted single page " ++ toString pg ++ " ‚Üí " ++ final_path)],
             fsAdd fs final_path)
    else if range_from ≠ "" && range_to ≠ "" then
      match pyInt range_from, pyInt range_to with
      | some a, some b =>
        if a < 1 || b > (total : Int) || a > b then
          ⟨effects, fs, .error "Invalid page range."⟩
        else if per_page then
          let pages := (List.range (b - a + 1).toNat).map fun k => a + (k : Int)
          afterBody (pages.foldl (fun acc pg => extractOnePage inp_path out_dir pg acc)
            (effects, fs))
        else
          let out_name := base_name ++ "_pages_" ++ toString a ++ "-" ++ toString b ++ ".pdf"
          let final_path := get_unique_path fs (pjoin out_dir out_name)
          afterBody
            (effects ++ [.savePdf final_path,
               .appLog ("‚úÖ Extracted pages " ++ toString a ++ "-" ++ toString b
                 ++ " ‚Üí " ++ final_path)],
             fsAdd fs final_path)
      | _, _ => ⟨effects, fs, .error "invalid literal for int()"⟩
    else
      ⟨effects, fs, .error "Specify single page or a page range."⟩

-- -------------------- Concrete run fixtures --------------------

/-- A simulated (SAFE-mode) run configuration used for concrete instances. -/
def safeParams : RunParams :=
  ⟨"in.pdf", "out", "[LINE 0]", "[LINE 0]", true, true, true, "2026-10-12"⟩

/-- The same configuration in live (non-simulated) mode. -/
def liveParams : RunParams :=
  ⟨"in.pdf", "out", "[LINE 0]", "[LINE 0]", true, false, false, "2026-10-12"⟩

-- -------------------- Character-model lemmas --------------------

/-- `pyToLower` either rewrites via an entry of `lowerPairs` or fixes the
character, and in the latter case the character is not an uppercase letter
of the modelled universe. -/
theorem pyToLower_spec (c : Char) :
    (∃ q ∈ lowerPairs, q.1 = c ∧ pyToLower c = q.2) ∨
      (pyToLower c = c ∧ pyIsUpper c = false) := by
  unfold pyToLower pyIsUpper
  cases hf : lowerPairs.find? (fun q => q.1 == c) with
  | none =>
    right
    refine ⟨by simp, ?_⟩
    rw [List.any_eq_false]
    intro q hq
    have := List.find?_eq_none.mp hf q hq
    simpa using this
  | some q =>
    left
    refine ⟨q, List.mem_of_find?_eq_some hf, ?_, by simp⟩
    have := List.find?_some hf
    simpa using this

/-- Lowercasing keeps word characters inside the modelled word class. -/
theorem pyIsWordChar_pyToLower (c : Char) (h : pyIsWordChar c = true) :
    pyIsWordChar (pyToLower c) = true := by
  rcases pyToLower_spec c with ⟨q, hq, _, hlow⟩ | ⟨hfix, _⟩
  · rw [hlow]
    revert hq
    have : ∀ q ∈ lowerPairs, pyIsWordChar q.2 = true := by decide
    exact this q
  · rwa [hfix]

/-- Lowercasing never yields an uppercase letter of the modelled universe. -/
theorem pyIsUpper_pyToLower (c : Char) : pyIsUpper (pyToLower c) = false := by
  rcases pyToLower_spec c with ⟨q, hq, _, hlow⟩ | ⟨hfix, hup⟩
  · rw [hlow]
    revert hq
    have : ∀ q ∈ lowerPairs, pyIsUpper q.2 = false := by decide
    exact this q
  · rwa [hfix]

/-- Word characters are never spaces, dots or path separators. -/
theorem pyIsWordChar_not_special (c : Char) (h : pyIsWordChar c = true) :
    c ≠ ' ' ∧ c ≠ '.' ∧ c ≠ '/' ∧ c ≠ '\\' := by
  refine ⟨?_, ?_, ?_, ?_⟩ <;> rintro rfl <;> exact absurd h (by decide)

/-- The character list underlying `String.mk`. -/
theorem string_data_mk (l : List Char) : (String.mk l).data = l := rfl

-- -------------------- C10 --------------------

/-- C10 (amended): every character of a normalized folder name is a word
character and not an uppercase letter — in particular never a space, dot or
path separator, so the output is a single safe path component.  (The
idempotence half of the original claim is refuted by
`C10_counterexample`: an already-normalized string can contain a
substitution-table key, which a second pass rewrites.) -/
theorem C10_normalized_chars (s : String) :
    ∀ c ∈ (normalize_folder_name s).data,
      pyIsWordChar c = true ∧ pyIsUpper c = false ∧
        c ≠ ' ' ∧ c ≠ '.' ∧ c ≠ '/' ∧ c ≠ '\\' := by
  intro c hc
  rw [normalize_folder_name, string_data_mk] at hc
  obtain ⟨b, hb, rfl⟩ := List.mem_map.mp hc
  have hw : pyIsWordChar b = true := (List.mem_filter.mp hb).2
  have h1 := pyIsWordChar_pyToLower b hw
  have h2 := pyIsUpper_pyToLower b
  have h3 := pyIsWordChar_not_special _ h1
  exact ⟨h1, h2, h3.1, h3.2.1, h3.2.2.1, h3.2.2.2⟩

/-- C10: the folder-name normalizer is not idempotent: `"ƒ ç"` normalizes to
`"ƒç"` (the space is a removed non-word character, both letters are word
characters), and a second normalization matches the substitution-table key
`"ƒç"` and rewrites it to `"c"`. -/
theorem C10_counterexample :
    normalize_folder_name (normalize_folder_name "ƒ ç") ≠ normalize_folder_name "ƒ ç" := by
  decide

/-- Witness for `C10_normalized_chars` at a concrete input. -/
theorem C10_witness :
    'a' ∈ (normalize_folder_name "Ab c").data ∧
      (pyIsWordChar 'a' = true ∧ pyIsUpper 'a' = false ∧
        'a' ≠ ' ' ∧ 'a' ≠ '.' ∧ 'a' ≠ '/' ∧ 'a' ≠ '\\') :=
  ⟨by decide, C10_normalized_chars "Ab c" 'a' (by decide)⟩

-- -------------------- Resolver lemmas --------------------

/-- Digits are not whitespace. -/
theorem digit_not_space (c : Char) (h : c.isDigit = true) : pyIsSpace c = false := by
  cases hs : pyIsSpace c with
  | false => rfl
  | true =>
    exfalso
    have hs' : c ∈ [' ', '\t', '\n', '\r', '\x0b', '\x0c'] := by
      simpa [pyIsSpace] using hs
    fin_cases hs' <;> simp [Char.isDigit] at h

/-- `parseDigits` on a digit block followed by a non-digit. -/
theorem parseDigits_block (dL : List Char) (x : Char) (r : List Char)
    (h1 : dL ≠ []) (h2 : ∀ c ∈ dL, c.isDigit = true) (hx : x.isDigit = false) :
    parseDigits (dL ++ x :: r) = some (digitsToNat dL, x :: r) := by
  unfold parseDigits
  rw [List.takeWhile_append_of_pos h2, List.takeWhile_cons_of_neg (by simp [hx]),
    List.append_nil]
  rw [if_neg (by simpa using h1)]
  rw [List.drop_left]

/-- `parseSpaces` on a single space followed by a non-space. -/
theorem parseSpaces_one (w x : Char) (r : List Char)
    (hw : pyIsSpace w = true) (hx : pyIsSpace x = false) :
    parseSpaces (w :: x :: r) = some (x :: r) := by
  unfold parseSpaces
  rw [List.takeWhile_cons_of_pos hw, List.takeWhile_cons_of_neg (by simp [hx])]
  rfl

/-- `matchToken` after the literal `[LINE` head reduces to the sequential
parsers (definitional unfolding of the matcher). -/
theorem matchToken_LINE (rest : List Char) :
    matchToken ('[' :: 'L' :: 'I' :: 'N' :: 'E' :: rest) =
      match parseSpaces rest with
      | none => none
      | some rest1 =>
        match parseDigits rest1 with
        | none => none
        | some (n, rest2) => matchAfterNum n rest2 := rfl

/-- `parseDigits_block` with the digit block in cons form. -/
theorem parseDigits_block_cons (d : Char) (dt : List Char) (x : Char) (r : List Char)
    (h2 : ∀ c ∈ d :: dt, c.isDigit = true) (hx : x.isDigit = false) :
    parseDigits (d :: (dt ++ x :: r)) = some (digitsToNat (d :: dt), x :: r) := by
  have := parseDigits_block (d :: dt) x r (by simp) h2 hx
  simpa [List.cons_append] using this

/-- `matchToken` recognizes a full `[LINE n]` token (single space, decimal
digits) and returns the rest of the input. -/
theorem matchToken_noRange (dn r : List Char)
    (h1 : dn ≠ []) (h2 : ∀ c ∈ dn, c.isDigit = true) :
    matchToken ('[' :: 'L' :: 'I' :: 'N' :: 'E' :: ' ' :: (dn ++ ']' :: r)) =
      some ((digitsToNat dn, none, none), r) := by
  obtain ⟨d, dt, rfl⟩ : ∃ d dt, dn = d :: dt := by
    cases dn with
    | nil => exact absurd rfl h1
    | cons d dt => exact ⟨d, dt, rfl⟩
  rw [matchToken_LINE]
  simp only [List.cons_append]
  simp only [parseSpaces_one ' ' d (dt ++ ']' :: r) (by decide)
      (digit_not_space d (h2 d (by simp))),
    parseDigits_block_cons d dt ']' r h2 (by decide)]
  rfl

/-- `matchToken` recognizes a full `[LINE n(s/e)]` token and returns the
rest of the input. -/
theorem matchToken_both (dn ds de r : List Char)
    (hn1 : dn ≠ []) (hn2 : ∀ c ∈ dn, c.isDigit = true)
    (hs1 : ds ≠ []) (hs2 : ∀ c ∈ ds, c.isDigit = true)
    (he1 : de ≠ []) (he2 : ∀ c ∈ de, c.isDigit = true) :
    matchToken ('[' :: 'L' :: 'I' :: 'N' :: 'E' :: ' '
        :: (dn ++ '(' :: (ds ++ '/' :: (de ++ ')' :: ']' :: r)))) =
      some ((digitsToNat dn, some (digitsToNat ds), some (digitsToNat de)), r) := by
  obtain ⟨d, dt, rfl⟩ : ∃ d dt, dn = d :: dt := by
    cases dn with
    | nil => exact absurd rfl hn1
    | cons d dt => exact ⟨d, dt, rfl⟩
  rw [matchToken_LINE]
  simp only [List.cons_append]
  simp only [parseSpaces_one ' ' d (dt ++ '(' :: (ds ++ '/' :: (de ++ ')' :: ']' :: r)))
      (by decide) (digit_not_space d (hn2 d (by simp))),
    parseDigits_block_cons d dt '(' (ds ++ '/' :: (de ++ ')' :: ']' :: r))
      hn2 (by decide)]
  show matchParenPart (digitsToNat (d :: dt)) (ds ++ '/' :: (de ++ ')' :: ']' :: r)) = _
  unfold matchParenPart
  simp only [parseDigits_block ds '/' (de ++ ')' :: ']' :: r) hs1 hs2 (by decide)]
  show matchSlashPart (digitsToNat (d :: dt)) (digitsToNat ds) (de ++ ')' :: ']' :: r) = _
  unfold matchSlashPart
  simp only [parseDigits_block de ')' (']' :: r) he1 he2 (by decide)]
  rfl

/-- `subAux` on empty input, any fuel. -/
theorem subAux_nil (lines : List String) (fuel : Nat) : subAux lines fuel [] = [] := by
  cases fuel <;> rfl

/-- `String.mk` of a string's own characters (structure eta). -/
theorem string_mk_data (s : String) : String.mk s.data = s := rfl

/-- When the whole input is one recognizable token, `subLineTokens` is
exactly the token's resolution. -/
theorem subLineTokens_token (lines : List String) (c : Char) (cs : List Char)
    (t : Nat × Option Nat × Option Nat)
    (h : matchToken (c :: cs) = some (t, [])) :
    subLineTokens lines (c :: cs) = (replace_token lines t.1 t.2.1 t.2.2).data := by
  show subAux lines (c :: cs).length (c :: cs) = _
  rw [List.length_cons]
  rw [show subAux lines (cs.length + 1) (c :: cs) =
      (match matchToken (c :: cs) with
       | some (tok, rest) =>
         (replace_token lines tok.1 tok.2.1 tok.2.2).data ++ subAux lines cs.length rest
       | none => c :: subAux lines cs.length cs) from rfl]
  rw [h]
  simp [subAux_nil]

-- -------------------- C2 --------------------

/-- C2 (amended): for every line array and every token `[LINE n(s/e)]` with
in-range `n`, the resolver slices from `start = max(s - 1, 0)` up to the
exclusive Python slice bound `e` (out-of-range `e` truncates) and strips —
so `e` is the last 1-based position included, and `[LINE 0(3/5)]` against
`"Hello World"` yields `"llo"` (1-based positions 3 through 5), not `"ll"`. -/
theorem C2_slice_semantics (lines : List String) (dn ds de : List Char)
    (hn1 : dn ≠ []) (hn2 : ∀ c ∈ dn, c.isDigit = true)
    (hs1 : ds ≠ []) (hs2 : ∀ c ∈ ds, c.isDigit = true)
    (he1 : de ≠ []) (he2 : ∀ c ∈ de, c.isDigit = true)
    (hin : digitsToNat dn < lines.length) :
    build_value_from_line_pattern lines
        (String.mk ('[' :: 'L' :: 'I' :: 'N' :: 'E' :: ' '
          :: (dn ++ '(' :: (ds ++ '/' :: (de ++ ')' :: ']' :: []))))) =
      pyStrip (pySlice (lines.getD (digitsToNat dn) "")
        (digitsToNat ds - 1) (digitsToNat de)) := by
  have hm := matchToken_both dn ds de [] hn1 hn2 hs1 hs2 he1 he2
  have ht := subLineTokens_token lines '['
    ('L' :: 'I' :: 'N' :: 'E' :: ' ' :: (dn ++ '(' :: (ds ++ '/' :: (de ++ ')' :: ']' :: []))))
    (digitsToNat dn, some (digitsToNat ds), some (digitsToNat de)) hm
  show String.mk (subLineTokens lines _) = _
  rw [ht, string_mk_data]
  unfold replace_token
  rw [if_neg (Nat.not_le.mpr hin)]
  have hstart : ((max ((digitsToNat ds : Int) - 1) 0).toNat) = digitsToNat ds - 1 := by
    omega
  simp only [hstart]

/-- C2: the claim's scenario is wrong on the code: `[LINE 0(3/5)]` against
`"Hello World"` resolves to `"llo"`, not `"ll"` — the bound `e` is a 0-based
exclusive slice bound, i.e. the last included 1-based position. -/
theorem C2_counterexample :
    build_value_from_line_pattern ["Hello World"] "[LINE 0(3/5)]" ≠ "ll" := by
  decide

/-- Witness for `C2_slice_semantics` at the spec's own scenario. -/
theorem C2_witness :
    build_value_from_line_pattern ["Hello World"]
        (String.mk ('[' :: 'L' :: 'I' :: 'N' :: 'E' :: ' '
          :: (['0'] ++ '(' :: (['3'] ++ '/' :: (['5'] ++ ')' :: ']' :: []))))) =
      pyStrip (pySlice (["Hello World"].getD (digitsToNat ['0']) "")
        (digitsToNat ['3'] - 1) (digitsToNat ['5'])) ∧
    build_value_from_line_pattern ["Hello World"] "[LINE 0(3/5)]" = "llo" :=
  ⟨C2_slice_semantics ["Hello World"] ['0'] ['3'] ['5'] (by decide) (by decide)
    (by decide) (by decide) (by decide) (by decide) (by decide),
   by decide⟩

-- -------------------- C6 --------------------

/-- C6 (amended): token recognition is purely syntactic and independent of
line content, but it is case-sensitive: for every line array, the uppercase
token `[LINE 0]` is substituted (with the stripped line 0, or the empty
string when no line exists), while the lowercase spelling `[line 0]` is left
as literal text. -/
theorem C6_case_sensitive (lines : List String) :
    build_value_from_line_pattern lines "[line 0]" = "[line 0]" ∧
      build_value_from_line_pattern lines "[LINE 0]" = pyStrip (lines.getD 0 "") := by
  constructor
  · rfl
  · have h : matchToken ('[' :: 'L' :: 'I' :: 'N' :: 'E' :: ' ' :: '0' :: ']' :: []) =
        some ((0, none, none), []) := rfl
    have ht := subLineTokens_token lines '[' ('L' :: 'I' :: 'N' :: 'E' :: ' ' :: '0' :: ']' :: [])
      (0, none, none) h
    show String.mk (subLineTokens lines _) = _
    rw [ht, string_mk_data]
    cases lines with
    | nil => rfl
    | cons a t => simp [replace_token]

/-- C6: the lowercase token `[line 0]` is not recognized while `[LINE 0]`
is, so recognition is case-sensitive. -/
theorem C6_counterexample :
    build_value_from_line_pattern ["Hello"] "[line 0]" ≠
      build_value_from_line_pattern ["Hello"] "[LINE 0]" := by
  decide

-- -------------------- C7 --------------------

/-- C7: an out-of-range line index resolves to the empty string, both at the
token-resolution level (with or without a character range) and through the
whole pattern pipeline; resolution is a total function, so no error is ever
raised. -/
theorem C7_out_of_range_empty (lines : List String) (n : Nat) (sp ep : Option Nat)
    (dn : List Char) (h : lines.length ≤ n)
    (h1 : dn ≠ []) (h2 : ∀ c ∈ dn, c.isDigit = true) (h3 : digitsToNat dn = n) :
    replace_token lines n sp ep = "" ∧
      build_value_from_line_pattern lines
        (String.mk ('[' :: 'L' :: 'I' :: 'N' :: 'E' :: ' ' :: (dn ++ ']' :: []))) = "" := by
  have ha : replace_token lines n sp ep = "" := by
    unfold replace_token
    rw [if_pos h]
  refine ⟨ha, ?_⟩
  have hm := matchToken_noRange dn [] h1 h2
  have ht := subLineTokens_token lines '['
    ('L' :: 'I' :: 'N' :: 'E' :: ' ' :: (dn ++ ']' :: [])) (digitsToNat dn, none, none) hm
  show String.mk (subLineTokens lines _) = _
  rw [ht, h3]
  have hb : replace_token lines n none none = "" := by
    unfold replace_token
    rw [if_pos h]
  rw [hb]

/-- Witness for `C7_out_of_range_empty` at a concrete input. -/
theorem C7_witness :
    replace_token ["a"] 3 none none = "" ∧
      build_value_from_line_pattern ["a"]
        (String.mk ('[' :: 'L' :: 'I' :: 'N' :: 'E' :: ' ' :: (['3'] ++ ']' :: []))) = "" :=
  C7_out_of_range_empty ["a"] 3 none none ['3'] (by decide) (by decide) (by decide)
    (by decide)

-- -------------------- C5 --------------------

/-- The probing loop returns the candidate at the first free counter: if
every counter from `counter` up to (excluding) `N` is taken and `N` is
free, the loop stops exactly at `N`. -/
theorem probePaths_reaches (fs : List String) (root ext : String) (N : Nat)
    (hfree : fs.contains (root ++ "_" ++ toString N ++ ext) = false) :
    ∀ fuel counter, counter ≤ N → N - counter < fuel →
      (∀ i, counter ≤ i → i < N →
        fs.contains (root ++ "_" ++ toString i ++ ext) = true) →
      probePaths fs root ext fuel counter = root ++ "_" ++ toString N ++ ext := by
  intro fuel
  induction fuel with
  | zero => intro counter _ h2 _; omega
  | succ f ih =>
    intro counter h1 h2 h3
    by_cases hc : counter = N
    · subst hc
      simp only [probePaths, hfree]
      rfl
    · have hlt : counter < N := lt_of_le_of_ne h1 hc
      simp only [probePaths, h3 counter le_rfl hlt, if_true]
      exact ih (counter + 1) (by omega) (by omega) (fun i hi1 hi2 => h3 i (by omega) hi2)

/-- C5: the path allocator returns the desired path unchanged when it does
not exist; and when the base path exists, every suffixed variant `stem_i`
for `1 ≤ i < N` exists and `stem_N` does not, it returns `stem_N` — the
first non-existing candidate in strictly increasing counter order from 1.
(`N ≤ fs.length + 1` always holds when the occupied variants are distinct
paths of `fs`, in particular in the claim's scenario of exactly `N` existing
files.) -/
theorem C5_first_free_suffix (fs : List String) (base_path : String) :
    (fs.contains base_path = false → get_unique_path fs base_path = base_path) ∧
    (∀ N, 1 ≤ N → N ≤ fs.length + 1 → fs.contains base_path = true →
      (∀ i, 1 ≤ i → i < N →
        fs.contains ((splitext base_path).1 ++ "_" ++ toString i
          ++ (splitext base_path).2) = true) →
      fs.contains ((splitext base_path).1 ++ "_" ++ toString N
          ++ (splitext base_path).2) = false →
      get_unique_path fs base_path =
        (splitext base_path).1 ++ "_" ++ toString N ++ (splitext base_path).2) := by
  constructor
  · intro h
    unfold get_unique_path
    rw [h]
    rfl
  · intro N hN hfuel hbase hex hfree
    unfold get_unique_path
    rw [hbase]
    show probePaths fs (splitext base_path).1 (splitext base_path).2 (fs.length + 1) 1 = _
    exact probePaths_reaches fs _ _ N hfree (fs.length + 1) 1 hN (by omega) hex

/-- Witness for `C5_first_free_suffix`: no collision keeps the path, and
with `a.pdf`, `a_1.pdf` existing the allocator returns `a_2.pdf`. -/
theorem C5_witness :
    get_unique_path [] "a.pdf" = "a.pdf" ∧
      get_unique_path ["a.pdf", "a_1.pdf"] "a.pdf" =
        (splitext "a.pdf").1 ++ "_" ++ toString (2 : Nat) ++ (splitext "a.pdf").2 :=
  ⟨(C5_first_free_suffix [] "a.pdf").1 (by decide),
   (C5_first_free_suffix ["a.pdf", "a_1.pdf"] "a.pdf").2 2 (by decide) (by decide)
     (by decide)
     (by
       intro i h1 h2
       have hi : i = 1 := by omega
       subst hi
       decide)
     (by decide)⟩

-- -------------------- Per-page loop lemmas --------------------

/-- Splitting an association: a doubly-appended list is a single append. -/
theorem exists_append3 {α : Type} (a b c : List α) : ∃ l, (a ++ b) ++ c = a ++ l :=
  ⟨b ++ c, by simp⟩

/-- Splitting an association: a triply-appended list is a single append. -/
theorem exists_append4 {α : Type} (a b c d : List α) : ∃ l, ((a ++ b) ++ c) ++ d = a ++ l :=
  ⟨b ++ (c ++ d), by simp⟩

/-- The debug dump consists of application-log appends only. -/
theorem debugEffects_all (f : FsEffect → Bool) (hf : ∀ s, f (FsEffect.appLog s) = true)
    (page_no : Nat) (lines : List String) : (debugEffects page_no lines).all f = true := by
  rw [List.all_eq_true]
  intro e he
  unfold debugEffects at he
  rcases List.mem_cons.mp he with rfl | he1
  · exact hf _
  rcases List.mem_append.mp he1 with he2 | he3
  · obtain ⟨a, _, heq⟩ := List.mem_map.mp he2
    exact heq ▸ hf _
  · rw [List.mem_singleton.mp he3]
    exact hf _

/-- Each page appends its effects at the end of the trace. -/
theorem processPage_effects_prefix (p : RunParams) (st : RunState) (idx : Nat)
    (text : String) :
    ∃ l, (processPage p st idx text).effects = st.effects ++ l := by
  unfold processPage
  cases hfn : (build_filename_from_line_pattern (pySplitlines text) p.file_pattern == ""
      || build_filename_from_line_pattern (pySplitlines text) p.file_pattern == ".pdf") <;>
    cases hsm : p.safe_mode <;>
      simp only [hfn, hsm] <;>
        first
          | exact exists_append3 _ _ _
          | exact exists_append4 _ _ _ _

/-- In SAFE mode a page appends only application-log lines to the effect
trace and leaves the filesystem and the success counter unchanged. -/
theorem processPage_safe_inv (p : RunParams) (st : RunState) (idx : Nat) (text : String)
    (hs : p.safe_mode = true) (f : FsEffect → Bool)
    (hf : ∀ s, f (FsEffect.appLog s) = true)
    (hst : st.effects.all f = true) :
    (processPage p st idx text).effects.all f = true ∧
      (processPage p st idx text).fs = st.fs ∧
      (processPage p st idx text).success = st.success := by
  have hdbg : ∀ (b : Bool),
      (if b = true then debugEffects (idx + 1) (pySplitlines text) else []).all f = true := by
    intro b
    cases b
    · rfl
    · exact debugEffects_all f hf _ _
  unfold processPage
  cases hfn : (build_filename_from_line_pattern (pySplitlines text) p.file_pattern == ""
      || build_filename_from_line_pattern (pySplitlines text) p.file_pattern == ".pdf") <;>
    simp only [hfn, hs] <;>
      refine ⟨?_, by trivial, by trivial⟩ <;>
        simp only [List.all_append, hst, Bool.true_and, hdbg] <;>
          simp [hf]

/-- In live mode each page increments exactly one of the two counters. -/
theorem processPage_live_sum (p : RunParams) (st : RunState) (idx : Nat) (text : String)
    (hl : p.safe_mode = false) :
    (processPage p st idx text).success + (processPage p st idx text).failed =
      st.success + st.failed + 1 := by
  unfold processPage
  cases hfn : (build_filename_from_line_pattern (pySplitlines text) p.file_pattern == ""
      || build_filename_from_line_pattern (pySplitlines text) p.file_pattern == ".pdf") <;>
    simp only [hfn, hl] <;> omega

/-- The naming decision a page appends is `decisionOf` of the page and the
pattern/flag arguments — independent of `safe_mode` and of the filesystem. -/
theorem processPage_decisions (p : RunParams) (st : RunState) (idx : Nat) (text : String) :
    (processPage p st idx text).decisions =
      st.decisions ++ [decisionOf p.out_dir p.file_pattern p.folder_pattern
        p.save_to_folders idx text] := by
  unfold processPage decisionOf
  cases hfn : (build_filename_from_line_pattern (pySplitlines text) p.file_pattern == ""
      || build_filename_from_line_pattern (pySplitlines text) p.file_pattern == ".pdf") <;>
    cases hsm : p.safe_mode <;>
      simp only [hfn, hsm]

-- -------------------- Whole-loop lemmas --------------------

/-- The page loop only appends to the effect trace. -/
theorem foldl_effects_prefix (p : RunParams) (l : List (Nat × String)) :
    ∀ st : RunState, ∃ tail,
      (l.foldl (fun s it => processPage p s it.1 it.2) st).effects = st.effects ++ tail := by
  induction l with
  | nil => exact fun st => ⟨[], by simp⟩
  | cons a t ih =>
    intro st
    obtain ⟨l2, h2⟩ := ih (processPage p st a.1 a.2)
    obtain ⟨l1, h1⟩ := processPage_effects_prefix p st a.1 a.2
    exact ⟨l1 ++ l2, by rw [List.foldl_cons, h2, h1, List.append_assoc]⟩

/-- In SAFE mode the whole page loop appends only application-log lines and
leaves the filesystem and the success counter unchanged. -/
theorem foldl_safe_inv (p : RunParams) (hs : p.safe_mode = true) (f : FsEffect → Bool)
    (hf : ∀ s, f (FsEffect.appLog s) = true) (l : List (Nat × String)) :
    ∀ st : RunState, st.effects.all f = true →
      (l.foldl (fun s it => processPage p s it.1 it.2) st).effects.all f = true ∧
        (l.foldl (fun s it => processPage p s it.1 it.2) st).fs = st.fs ∧
        (l.foldl (fun s it => processPage p s it.1 it.2) st).success = st.success := by
  induction l with
  | nil => exact fun st h => ⟨h, rfl, rfl⟩
  | cons a t ih =>
    intro st h
    obtain ⟨h1, h2, h3⟩ := processPage_safe_inv p st a.1 a.2 hs f hf h
    obtain ⟨g1, g2, g3⟩ := ih (processPage p st a.1 a.2) h1
    rw [List.foldl_cons]
    exact ⟨g1, g2.trans h2, g3.trans h3⟩

/-- In live mode the loop's counters sum to the number of processed pages. -/
theorem foldl_live_sum (p : RunParams) (hl : p.safe_mode = false) (l : List (Nat × String)) :
    ∀ st : RunState,
      (l.foldl (fun s it => processPage p s it.1 it.2) st).success +
        (l.foldl (fun s it => processPage p s it.1 it.2) st).failed =
      st.success + st.failed + l.length := by
  induction l with
  | nil => intro st; simp
  | cons a t ih =>
    intro st
    have h1 := processPage_live_sum p st a.1 a.2 hl
    have h2 := ih (processPage p st a.1 a.2)
    rw [List.foldl_cons]
    rw [h2, h1]
    simp
    omega

/-- The loop's decision sequence is the pointwise `decisionOf` map. -/
theorem foldl_decisions (p : RunParams) (l : List (Nat × String)) :
    ∀ st : RunState,
      (l.foldl (fun s it => processPage p s it.1 it.2) st).decisions =
        st.decisions ++ l.map (fun it => decisionOf p.out_dir p.file_pattern
          p.folder_pattern p.save_to_folders it.1 it.2) := by
  induction l with
  | nil => intro st; simp
  | cons a t ih =>
    intro st
    rw [List.foldl_cons, ih (processPage p st a.1 a.2), processPage_decisions,
      List.map_cons, List.append_assoc]
    rfl

-- -------------------- C1 --------------------

/-- C1 (amended): a simulated (safe-mode) run performs no output-tree
mutation whatsoever — no directory creation, no page artifact write, no
audit CSV write — and leaves the modelled filesystem unchanged, for every
document, pattern pair and flag setting.  (The original claim's "no
filesystem mutation whatsoever" is refuted by `C1_counterexample`: the run
still appends progress lines to the application log file via
`write_app_log`.) -/
theorem C1_safe_no_output_writes (p : RunParams) (doc fs0 : List String)
    (hs : p.safe_mode = true) :
    (split_pdf_full p doc fs0).effects.all (fun e => !e.isOutputWrite) = true ∧
      (split_pdf_full p doc fs0).fs = fs0 := by
  unfold split_pdf_full
  split
  · exact ⟨rfl, rfl⟩
  · simp only [hs, Bool.not_true, Bool.false_and, Bool.false_eq_true, if_true, if_false]
    obtain ⟨h1, h2, h3⟩ := foldl_safe_inv p hs (fun e => !e.isOutputWrite)
      (fun s => rfl) doc.enum
      ⟨fs0, [FsEffect.appLog ("üïí Split started: " ++ p.inp_path)], [], [], 0, 0⟩ rfl
    constructor
    · simp only [List.all_append, h1, Bool.true_and]
      rfl
    · exact h2

/-- C1: a simulated run is not free of all filesystem mutation: even in
safe mode every logged line is appended to the application log file
(`write_app_log`, src line 55), which opens `app_log.txt` for appending —
a filesystem write outside the output tree. -/
theorem C1_counterexample :
    (split_pdf_full safeParams ["x"] []).effects.any FsEffect.isFsWrite = true := by
  decide

/-- Witness for `C1_safe_no_output_writes` at a concrete simulated run. -/
theorem C1_witness :
    (split_pdf_full safeParams ["x"] []).effects.all (fun e => !e.isOutputWrite) = true ∧
      (split_pdf_full safeParams ["x"] []).fs = [] :=
  C1_safe_no_output_writes safeParams ["x"] [] rfl

-- -------------------- C3 --------------------

/-- The decision sequence of any run is the pointwise classification of the
pages, independent of `safe_mode` and of the initial filesystem. -/
theorem split_pdf_full_decisions (doc : List String) (q : RunParams) (fsx : List String) :
    (split_pdf_full q doc fsx).decisions =
      doc.enum.map (fun it => decisionOf q.out_dir q.file_pattern q.folder_pattern
        q.save_to_folders it.1 it.2) := by
  unfold split_pdf_full
  split
  · rename_i h
    rw [List.length_eq_zero.mp h]
    rfl
  · cases hq : q.safe_mode <;>
      simp only [hq, Bool.not_true, Bool.not_false, Bool.true_and, Bool.false_and,
        Bool.false_eq_true, if_true, if_false]
    · split <;>
      · rw [foldl_decisions q doc.enum]
        rfl
    · rw [foldl_decisions q doc.enum]
      rfl

/-- C3: a simulated run and a live run on the same document and patterns
(and any initial filesystems) compute identical per-page naming-decision
sequences: same status, sanitized file name, raw and normalized folder
values, and target directory for every page. -/
theorem C3_simulation_equivalence (p : RunParams) (doc fs0 fs1 : List String) :
    (split_pdf_full { p with safe_mode := true } doc fs0).decisions =
      (split_pdf_full { p with safe_mode := false } doc fs1).decisions := by
  rw [split_pdf_full_decisions doc { p with safe_mode := true } fs0,
    split_pdf_full_decisions doc { p with safe_mode := false } fs1]

-- -------------------- C4 --------------------

/-- C4 (amended): in a live run with at least one page the `!manual_review`
subdirectory is created eagerly at run start — the second and third effects
of the trace are the creation of the output root and of `!manual_review`,
before any page is examined and regardless of per-page outcomes; only a
zero-page run creates no directory at all. -/
theorem C4_eager_review_dir (p : RunParams) (doc fs0 : List String)
    (hl : p.safe_mode = false) :
    (doc ≠ [] →
      (split_pdf_full p doc fs0).effects.take 3 =
        [FsEffect.appLog ("üïí Split started: " ++ p.inp_path),
         FsEffect.mkdir p.out_dir,
         FsEffect.mkdir (pjoin p.out_dir "!manual_review")]) ∧
    (doc = [] →
      (split_pdf_full p doc fs0).effects =
        [FsEffect.appLog ("üïí Split started: " ++ p.inp_path),
         FsEffect.appLog "‚ö† PDF has no pages."]) := by
  unfold split_pdf_full
  split
  · rename_i h
    constructor
    · intro hne
      exact absurd (List.length_eq_zero.mp h) hne
    · intro _
      rfl
  · rename_i h
    constructor
    · intro _
      simp only [hl, Bool.not_false, Bool.true_and, Bool.false_eq_true, if_true, if_false]
      obtain ⟨tail, htail⟩ := foldl_effects_prefix p doc.enum
        ⟨fsAdd (fsAdd fs0 p.out_dir) (pjoin p.out_dir "!manual_review"),
         [FsEffect.appLog ("üïí Split started: " ++ p.inp_path)]
           ++ [FsEffect.mkdir p.out_dir, FsEffect.mkdir (pjoin p.out_dir "!manual_review")],
         [], [], 0, 0⟩
      split <;>
      · rw [htail]
        simp only [List.append_assoc, List.cons_append, List.nil_append]
        rfl
    · intro he
      subst he
      simp at h

/-- C4: the `!manual_review` directory is not created lazily: a live run in
which the single page resolves successfully (failed count 0) still creates
`out/!manual_review`. -/
theorem C4_counterexample :
    (split_pdf_full liveParams ["x"] []).summary.failed = 0 ∧
      FsEffect.mkdir "out/!manual_review" ∈ (split_pdf_full liveParams ["x"] []).effects := by
  constructor <;> decide

/-- Witness for `C4_eager_review_dir` at a concrete live run. -/
theorem C4_witness :
    (split_pdf_full liveParams ["x"] []).effects.take 3 =
      [FsEffect.appLog ("üïí Split started: " ++ liveParams.inp_path),
       FsEffect.mkdir liveParams.out_dir,
       FsEffect.mkdir (pjoin liveParams.out_dir "!manual_review")] :=
  (C4_eager_review_dir liveParams ["x"] [] rfl).1 (by decide)

-- -------------------- C9 --------------------

/-- C9 (amended): in a live (safe_mode=false) run over a document with at
least one page, each page increments exactly one of the success or failed
counters, so `success + failed = total = N`.  (In a simulated run resolved
pages increment neither counter — see `C9_counterexample` — so the identity
fails there.) -/
theorem C9_live_partition (p : RunParams) (doc fs0 : List String)
    (hl : p.safe_mode = false) (hn : 1 ≤ doc.length) :
    (split_pdf_full p doc fs0).summary.success +
        (split_pdf_full p doc fs0).summary.failed =
      (split_pdf_full p doc fs0).summary.total ∧
    (split_pdf_full p doc fs0).summary.total = doc.length := by
  unfold split_pdf_full
  split
  · exact absurd ‹doc.length = 0› (by omega)
  · simp only [hl, Bool.not_false, Bool.true_and, Bool.false_eq_true, if_true, if_false]
    have hsum := foldl_live_sum p hl doc.enum
      ⟨fsAdd (fsAdd fs0 p.out_dir) (pjoin p.out_dir "!manual_review"),
       [FsEffect.appLog ("üïí Split started: " ++ p.inp_path)]
         ++ [FsEffect.mkdir p.out_dir, FsEffect.mkdir (pjoin p.out_dir "!manual_review")],
       [], [], 0, 0⟩
    have henum : doc.enum.length = doc.length := List.enum_length
    dsimp only at hsum
    split <;> refine ⟨?_, by trivial⟩ <;> · dsimp only; omega

/-- C9: in a simulated run a resolved page increments neither counter (the
SAFE branch of the loop skips `success += 1`), so on a one-page document
that resolves, success + failed = 0 ≠ 1 = total. -/
theorem C9_counterexample :
    ¬((split_pdf_full safeParams ["x"] []).summary.success +
        (split_pdf_full safeParams ["x"] []).summary.failed =
      (split_pdf_full safeParams ["x"] []).summary.total) := by
  decide

/-- Witness for `C9_live_partition` at a concrete live run. -/
theorem C9_witness :
    (split_pdf_full liveParams ["x"] []).summary.success +
        (split_pdf_full liveParams ["x"] []).summary.failed =
      (split_pdf_full liveParams ["x"] []).summary.total ∧
    (split_pdf_full liveParams ["x"] []).summary.total = (["x"] : List String).length :=
  C9_live_partition liveParams ["x"] [] rfl (by decide)

-- -------------------- C8 --------------------

/-- C8 (amended): for every call of the whole-document page-extraction
operation on a non-empty document with malformed page arguments
(out-of-range single page; from < 1, to > page count or from > to; or
neither a single page nor a full range given), the call is rejected
synchronously before any artifact write — but not before all I/O: the
output directory has already been created (src line 465 runs before the
validating `try` block), so the effect trace at the rejection is exactly
the start log followed by the directory creation. -/
theorem C8_reject_before_artifact_write
    (inp_path out_dir single_page range_from range_to : String)
    (per_page auto_open : Bool) (total : Nat) (fs0 : List String)
    (htot : 1 ≤ total)
    (hbad :
      (single_page ≠ "" ∧ ∃ pg : Int, pyInt single_page = some pg ∧
        (pg < 1 ∨ (total : Int) < pg))
      ∨ (single_page = "" ∧ range_from ≠ "" ∧ range_to ≠ "" ∧
          ∃ a b : Int, pyInt range_from = some a ∧ pyInt range_to = some b ∧
            (a < 1 ∨ (total : Int) < b ∨ b < a))
      ∨ (single_page = "" ∧ (range_from = "" ∨ range_to = ""))) :
    (∃ msg, (extract_pages inp_path out_dir single_page range_from range_to per_page
        auto_open total fs0).result = .error msg) ∧
    (extract_pages inp_path out_dir single_page range_from range_to per_page
        auto_open total fs0).effects =
      [FsEffect.appLog ("üïí Extract started: " ++ inp_path), FsEffect.mkdir out_dir] := by
  unfold extract_pages
  rw [if_neg (by omega : ¬ total = 0)]
  rcases hbad with ⟨h1, pg, hpg, hout⟩ | ⟨h1, h2, h3, a, b, ha, hb, hout⟩ | ⟨h1, h2⟩
  · rw [if_pos h1, hpg]
    dsimp only
    rw [if_pos (by simpa using hout)]
    exact ⟨⟨_, rfl⟩, rfl⟩
  · rw [if_neg (by simp [h1]), if_pos (by simp [h2, h3]), ha, hb]
    dsimp only
    rw [if_pos (by simpa [or_assoc] using hout)]
    exact ⟨⟨_, rfl⟩, rfl⟩
  · rw [if_neg (by simp [h1]), if_neg (by rcases h2 with rfl | rfl <;> simp)]
    exact ⟨⟨_, rfl⟩, rfl⟩

/-- C8: the rejection is not free of directory creation: calling extraction
with the out-of-range single page "0" on a 3-page document raises, yet the
output directory has already been created before the rejection. -/
theorem C8_counterexample :
    FsEffect.mkdir "out" ∈
        (extract_pages "in.pdf" "out" "0" "" "" false false 3 []).effects ∧
      (extract_pages "in.pdf" "out" "0" "" "" false false 3 []).result =
        Except.error "Page number out of range." :=
  ⟨by decide, rfl⟩

/-- Witness for `C8_reject_before_artifact_write` at a concrete call. -/
theorem C8_witness :
    (∃ msg, (extract_pages "in.pdf" "out" "0" "" "" false false 3 []).result =
        .error msg) ∧
      (extract_pages "in.pdf" "out" "0" "" "" false false 3 []).effects =
        [FsEffect.appLog ("üïí Extract started: " ++ "in.pdf"), FsEffect.mkdir "out"] :=
  C8_reject_before_artifact_write "in.pdf" "out" "0" "" "" false false 3 [] (by decide)
    (Or.inl ⟨by decide, 0, by decide, Or.inl (by decide)⟩)
